import Mathlib

/-!
Verification of the core build-system semantics of `lib/BuildSystem/BuildSystem.cpp`
(swift-llbuild). The definitions below are a shallow embedding of the task
implementations, tool commands and delegate logic of that file; machine integers
are modelled as `Nat` with explicit reduction modulo `2^32` / `2^64` where the
C++ code computes in `uint32_t` / `uint64_t`.
-/

/-- Modelled from the spec (§3): `FileInfo` (llbuild/Basic/FileInfo.h is not under
src) is a compact file fingerprint (device, inode, size, mtime, mode) with exact
field-wise equality. A missing file is represented in this embedding by `Option`
(`none` = the stat reported the file missing). -/
structure FileInfo where
  device : Nat
  inode : Nat
  size : Nat
  modTime : Nat
  mode : Nat
deriving DecidableEq

/-- Modelled from the spec (§3): whether the stat fingerprint describes a
directory; derived from the POSIX `S_IFDIR` bit of the `mode` field. -/
def FileInfo.isDirectory (info : FileInfo) : Bool :=
  info.mode &&& 16384 != 0

/-- The `BuildValue` outcome record (spec §3; BuildValue.h is not under src, the
variant set and carried data follow the spec table and the uses in
BuildSystem.cpp). -/
inductive BuildValue where
  | invalid
  | virtualInput
  | existingInput (info : FileInfo)
  | missingInput
  | failedInput
  | successfulCommand (outputInfos : List FileInfo) (commandSignature : Nat)
  | failedCommand
  | skippedCommand
  | target
deriving DecidableEq

def BuildValue.isVirtualInput : BuildValue → Bool
  | BuildValue.virtualInput => true
  | _ => false

def BuildValue.isMissingInput : BuildValue → Bool
  | BuildValue.missingInput => true
  | _ => false

def BuildValue.isExistingInput : BuildValue → Bool
  | BuildValue.existingInput _ => true
  | _ => false

def BuildValue.isFailedInput : BuildValue → Bool
  | BuildValue.failedInput => true
  | _ => false

def BuildValue.isSuccessfulCommand : BuildValue → Bool
  | BuildValue.successfulCommand _ _ => true
  | _ => false

/-- Modelled from the spec (§3): the `FileInfo` embedded in a value, as read by
`BuildValue::getOutputInfo` at the call sites in BuildSystem.cpp (the value of an
existing input, or the captured info of a command output). -/
def BuildValue.getOutputInfo : BuildValue → Option FileInfo
  | BuildValue.existingInput info => some info
  | BuildValue.successfulCommand infos _ => infos.head?
  | _ => none

/-- The `BuildKey` identity space (spec §3). -/
inductive BuildKey where
  | unknown
  | command (name : String)
  | customTask (name : String)
  | node (name : String)
  | target (name : String)
deriving DecidableEq

/-- Modelled from the spec (§9): `basic::hashString` (llbuild/Basic/Hashing.h is
not under src) is a stable non-cryptographic 64-bit hash of the string bytes. -/
def hashString (s : String) : Nat :=
  s.toList.foldl (fun h c => (h * 31 + c.toNat) % 18446744073709551616) 5381

/-- BuildSystem.cpp line 122: the internal schema version constant. -/
def BuildSystemImpl.internalSchemaVersion : Nat := 1

/-- BuildSystem.cpp lines 227-233 (`BuildSystemImpl::getMergedSchemaVersion`):
`internalSchemaVersion + (clientVersion << 16)` computed in `uint32_t`
arithmetic. -/
def BuildSystemImpl.getMergedSchemaVersion (clientVersion : Nat) : Nat :=
  (BuildSystemImpl.internalSchemaVersion
    + (clientVersion * 65536) % 4294967296) % 4294967296

/-- The per-build state of a `TargetTask` (BuildSystem.cpp lines 271-338): the
sticky `hasMissingInput` flag, plus the errors the task has reported through
`BuildSystemImpl::error`. -/
structure TargetTask.State where
  hasMissingInput : Bool
  errors : List String
deriving DecidableEq

/-- BuildSystem.cpp lines 297-312 (`TargetTask::provideValue`): when the
delivered value is a missing input, set the sticky flag and report the
missing-input error naming the node at `inputID`. -/
def TargetTask.provideValue (nodeNames : List String) (st : TargetTask.State)
    (inputID : Nat) (value : BuildValue) : TargetTask.State :=
  if value.isMissingInput then
    { hasMissingInput := true,
      errors := st.errors
        ++ ["missing input '" ++ nodeNames.getD inputID "" ++ "' and no rule to build it"] }
  else
    st

/-- The engine delivering, in order of the positional input ids requested by
`TargetTask::start` (BuildSystem.cpp lines 283-290), one value per requested
node to `TargetTask::provideValue`. -/
def TargetTask.deliverFrom (nodeNames : List String) (st : TargetTask.State)
    (inputID : Nat) : List BuildValue → TargetTask.State
  | [] => st
  | value :: rest =>
    TargetTask.deliverFrom nodeNames
      (TargetTask.provideValue nodeNames st inputID value) (inputID + 1) rest

/-- BuildSystem.cpp lines 314-328 (`TargetTask::inputsAvailable`): the reported
errors, the number of `hadCommandFailure` delegate calls, and the completion
value (always `Target`). -/
def TargetTask.inputsAvailable (targetName : String) (st : TargetTask.State) :
    List String × Nat × BuildValue :=
  if st.hasMissingInput then
    (["cannot build target '" ++ targetName ++ "' due to missing input"], 1,
      BuildValue.target)
  else
    ([], 0, BuildValue.target)

/-- BuildSystem.cpp lines 333-337 (`TargetTask::isResultValid`): always treat
target tasks as invalid. -/
def TargetTask.isResultValid (value : BuildValue) : Bool := false

/-- The observable outcome of `BuildSystemImpl::build`: the returned boolean,
the errors reported through the delegate, and the number of
`hadCommandFailure` calls. -/
structure BuildOutcome where
  returned : Bool
  errors : List String
  commandFailures : Nat
deriving DecidableEq

/-- BuildSystem.cpp lines 768-795 (`BuildSystemImpl::build`): if the build file
fails to load, report an error and return `false`; otherwise build the target
key (here: run the target task on the values the engine delivers for its
nodes) and return `true`. -/
def BuildSystemImpl.build (loadSucceeds : Bool) (targetName : String)
    (nodeNames : List String) (nodeValues : List BuildValue) : BuildOutcome :=
  if !loadSucceeds then
    { returned := false, errors := ["unable to load build file"],
      commandFailures := 0 }
  else
    let st := TargetTask.deliverFrom nodeNames
      { hasMissingInput := false, errors := [] } 0 nodeValues
    let fin := TargetTask.inputsAvailable targetName st
    { returned := true, errors := st.errors ++ fin.1,
      commandFailures := fin.2.1 }

/-- BuildSystem.cpp lines 357-378 (`InputNodeTask::inputsAvailable`): virtual
nodes complete with `VirtualInput`; otherwise the file is stat-ed and the task
completes with `MissingInput` or `ExistingInput(info)`. -/
def InputNodeTask.inputsAvailable (isVirtual : Bool)
    (statInfo : Option FileInfo) : BuildValue :=
  if isVirtual then
    BuildValue.virtualInput
  else
    match statInfo with
    | none => BuildValue.missingInput
    | some info => BuildValue.existingInput info

/-- BuildSystem.cpp lines 383-405 (`InputNodeTask::isResultValid`): virtual
nodes require `VirtualInput`; otherwise the file is stat-ed and a missing file
requires `MissingInput`, a present file requires `ExistingInput` whose embedded
`FileInfo` equals the current stat. -/
def InputNodeTask.isResultValid (isVirtual : Bool) (statInfo : Option FileInfo)
    (value : BuildValue) : Bool :=
  if isVirtual then
    value.isVirtualInput
  else
    match statInfo with
    | none => value.isMissingInput
    | some info => value.isExistingInput && (value.getOutputInfo == some info)

/-- The engine-visible result of `ProducedNodeTask::start`: the input keys the
task requested (with their input ids), the errors it reported, and its
`isInvalid` flag. -/
structure ProducedNodeTask.StartResult where
  requests : List (BuildKey × Nat)
  errors : List String
  isInvalid : Bool
deriving DecidableEq

/-- BuildSystem.cpp lines 427-445 (`ProducedNodeTask::start`): with exactly one
producer, request its `Command` key with input id 0; otherwise report the
ambiguous-producer error naming the first two producers, set `isInvalid`, and
request nothing. -/
def ProducedNodeTask.start (nodeName : String) (producers : List String) :
    ProducedNodeTask.StartResult :=
  if producers.length = 1 then
    { requests := [(BuildKey.command (producers.getD 0 ""), 0)],
      errors := [], isInvalid := false }
  else
    { requests := [],
      errors := ["unable to build node: '" ++ nodeName
        ++ "' (node is produced by multiple commands; e.g., '"
        ++ producers.getD 0 "" ++ "' and '" ++ producers.getD 1 "" ++ "')"],
      isInvalid := true }

/-- BuildSystem.cpp lines 460-470 (`ProducedNodeTask::inputsAvailable`): an
invalid task completes with `FailedInput`, otherwise with the node result
projected from the producing command's value. -/
def ProducedNodeTask.inputsAvailable (isInvalid : Bool)
    (nodeResult : BuildValue) : BuildValue :=
  if isInvalid then BuildValue.failedInput else nodeResult

/-- The engine-visible effect of one `MissingCommandTask` callback: requested
inputs and emitted completions (value, forceChange pairs). -/
structure TaskEffects where
  requests : List (BuildKey × Nat)
  completions : List (BuildValue × Bool)
deriving DecidableEq

/-- BuildSystem.cpp line 535 (`MissingCommandTask::start`): does nothing. -/
def MissingCommandTask.start : TaskEffects :=
  { requests := [], completions := [] }

/-- BuildSystem.cpp lines 536-537 (`MissingCommandTask::providePriorValue`):
does nothing. -/
def MissingCommandTask.providePriorValue (value : BuildValue) : TaskEffects :=
  { requests := [], completions := [] }

/-- BuildSystem.cpp lines 539-540 (`MissingCommandTask::provideValue`): does
nothing. -/
def MissingCommandTask.provideValue (inputID : Nat) (value : BuildValue) :
    TaskEffects :=
  { requests := [], completions := [] }

/-- BuildSystem.cpp lines 542-548 (`MissingCommandTask::inputsAvailable`):
completes with the `Invalid` value and `forceChange = true`. -/
def MissingCommandTask.inputsAvailable : TaskEffects :=
  { requests := [], completions := [(BuildValue.invalid, true)] }

/-- BuildSystem.cpp lines 576-580 (`BuildSystemEngineDelegate::lookupRule`,
missing-command rule): the cached result for a missing command is never
valid. -/
def MissingCommandTask.ruleIsValid (value : BuildValue) : Bool := false

/-- BuildSystem.cpp lines 859-866 (`ShellCommand::getSignature`): start from
the `ExternalCommand` base signature (a parameter here; ExternalCommand.cpp is
not under src) and XOR in the hash of every argv element. -/
def ShellCommand.getSignature (baseSignature : Nat) (args : List String) :
    Nat :=
  args.foldl (fun result arg => result ^^^ hashString arg) baseSignature

/-- BuildSystem.cpp lines 1140-1142 (`MkdirCommand::getSignature`): the hash of
the output node's name. -/
def MkdirCommand.getSignature (outputName : String) : Nat :=
  hashString outputName

/-- BuildSystem.cpp lines 1216-1239 (`MkdirCommand::isResultValid`): the prior
value must be a successful command, and the current stat of the declared output
must show an existing directory; the embedded `FileInfo` is not consulted. -/
def MkdirCommand.isResultValid (statInfo : Option FileInfo)
    (value : BuildValue) : Bool :=
  if !value.isSuccessfulCommand then
    false
  else
    match statInfo with
    | none => false
    | some info => if !info.isDirectory then false else true

/-- BuildSystem.cpp lines 1357-1374 (`BuildSystemFileDelegate::configureClient`):
the declared client name and version must match the system delegate's
configured name and version; the property list is not consulted. -/
def BuildSystemFileDelegate.configureClient (delegateName : String)
    (delegateVersion : Nat) (name : String) (version : Nat)
    (properties : List (String × String)) : Bool :=
  if name != delegateName then
    false
  else if version != delegateVersion then
    false
  else
    true

/-- Modelled from the spec: `BuildFile::load` (BuildFile.cpp is not under src).
Per spec §7, a manifest whose client declaration is rejected by
`configureClient` fails to load; `restOk` abstracts every other way loading can
succeed or fail. -/
def BuildFile.load (clientAccepted : Bool) (restOk : Bool) : Bool :=
  clientAccepted && restOk

/-- The XOR-fold of a list of 64-bit hashes; the order-insensitive combination
underlying `ShellCommand::getSignature`. -/
def xorSum (l : List Nat) : Nat :=
  l.foldr Nat.xor 0

theorem xorSum_cons (a : Nat) (l : List Nat) : xorSum (a :: l) = a ^^^ xorSum l :=
  rfl

theorem xorSum_perm {l1 l2 : List Nat} (h : l1.Perm l2) : xorSum l1 = xorSum l2 := by
  induction h with
  | nil => rfl
  | cons x _ ih => rw [xorSum_cons, xorSum_cons, ih]
  | swap x y l =>
    rw [xorSum_cons, xorSum_cons, xorSum_cons, xorSum_cons, ← Nat.xor_assoc,
      ← Nat.xor_assoc, Nat.xor_comm y x]
  | trans _ _ ih1 ih2 => rw [ih1, ih2]

theorem xorLeftCancel (a x y : Nat) : (a ^^^ x = a ^^^ y) ↔ x = y := by
  constructor
  · intro h
    have h2 : a ^^^ (a ^^^ x) = a ^^^ (a ^^^ y) := by rw [h]
    rwa [← Nat.xor_assoc, ← Nat.xor_assoc, Nat.xor_self, Nat.zero_xor,
      Nat.zero_xor] at h2
  · intro h
    rw [h]

theorem ShellCommand.getSignature_eq_xorSum (base : Nat) (args : List String) :
    ShellCommand.getSignature base args = base ^^^ xorSum (args.map hashString) := by
  induction args generalizing base with
  | nil => simp [ShellCommand.getSignature, xorSum]
  | cons a rest ih =>
    have h0 : ShellCommand.getSignature base (a :: rest)
        = ShellCommand.getSignature (base ^^^ hashString a) rest := rfl
    rw [h0, ih, List.map_cons, xorSum_cons, Nat.xor_assoc]

theorem TargetTask.deliverFrom_errors_mono (nodeNames : List String)
    (values : List BuildValue) (st : TargetTask.State) (inputID : Nat)
    (m : String) (hm : m ∈ st.errors) :
    m ∈ (TargetTask.deliverFrom nodeNames st inputID values).errors := by
  induction values generalizing st inputID with
  | nil => exact hm
  | cons v rest ih =>
    apply ih
    cases hb : v.isMissingInput with
    | false => simpa [TargetTask.provideValue, hb] using hm
    | true =>
      simp only [TargetTask.provideValue, hb, if_true, List.mem_append]
      exact Or.inl hm

theorem TargetTask.deliverFrom_flag_mono (nodeNames : List String)
    (values : List BuildValue) (st : TargetTask.State) (inputID : Nat)
    (hf : st.hasMissingInput = true) :
    (TargetTask.deliverFrom nodeNames st inputID values).hasMissingInput = true := by
  induction values generalizing st inputID with
  | nil => exact hf
  | cons v rest ih =>
    apply ih
    cases hb : v.isMissingInput with
    | false => simpa [TargetTask.provideValue, hb] using hf
    | true => simp [TargetTask.provideValue, hb]

theorem TargetTask.deliverFrom_missing (nodeNames : List String)
    (values : List BuildValue) :
    ∀ (st : TargetTask.State) (inputID i : Nat),
    values[i]? = some BuildValue.missingInput →
    (("missing input '" ++ nodeNames.getD (inputID + i) ""
        ++ "' and no rule to build it")
      ∈ (TargetTask.deliverFrom nodeNames st inputID values).errors)
    ∧ (TargetTask.deliverFrom nodeNames st inputID values).hasMissingInput
        = true := by
  induction values with
  | nil =>
    intro st inputID i h
    simp at h
  | cons v rest ih =>
    intro st inputID i h
    cases i with
    | zero =>
      have hv : v = BuildValue.missingInput := by simpa using h
      subst hv
      have hstep : TargetTask.provideValue nodeNames st inputID
          BuildValue.missingInput
          = { hasMissingInput := true,
              errors := st.errors ++ ["missing input '"
                ++ nodeNames.getD inputID ""
                ++ "' and no rule to build it"] } := rfl
      constructor
      · rw [Nat.add_zero]
        show _ ∈ (TargetTask.deliverFrom nodeNames
          (TargetTask.provideValue nodeNames st inputID
            BuildValue.missingInput) (inputID + 1) rest).errors
        apply TargetTask.deliverFrom_errors_mono
        rw [hstep]
        simp
      · show (TargetTask.deliverFrom nodeNames
          (TargetTask.provideValue nodeNames st inputID
            BuildValue.missingInput) (inputID + 1) rest).hasMissingInput = true
        apply TargetTask.deliverFrom_flag_mono
        rw [hstep]
    | succ j =>
      have hrest : rest[j]? = some BuildValue.missingInput := by simpa using h
      have harith : inputID + (j + 1) = (inputID + 1) + j := by omega
      rw [harith]
      exact ih (TargetTask.provideValue nodeNames st inputID v) (inputID + 1)
        j hrest

/-- C3 counterexample: the client version 65536 is allowed by the code's
assertion (v ≤ 2^16), but there `clientVersion << 16` wraps in `uint32_t`
arithmetic: the merged version is 1, which is neither the value 1 + (65536 <<
16) nor has 65536 in its high 16 bits. -/
theorem getMergedSchemaVersion_wraps_at_65536 :
    BuildSystemImpl.getMergedSchemaVersion 65536 = 1
    ∧ BuildSystemImpl.getMergedSchemaVersion 65536 ≠ 1 + 65536 * 65536
    ∧ BuildSystemImpl.getMergedSchemaVersion 65536 / 65536 ≠ 65536 := by
  refine ⟨rfl, by decide, by decide⟩

/-- C3 (amended): for every client version v strictly below 2^16,
getMergedSchemaVersion returns 1 + (v << 16): its low 16 bits are the internal
schema version 1 and its high 16 bits are v. -/
theorem getMergedSchemaVersion_eq (v : Nat) (h : v < 65536) :
    BuildSystemImpl.getMergedSchemaVersion v = 1 + v * 65536
    ∧ BuildSystemImpl.getMergedSchemaVersion v % 65536 = 1
    ∧ BuildSystemImpl.getMergedSchemaVersion v / 65536 = v := by
  simp only [BuildSystemImpl.getMergedSchemaVersion,
    BuildSystemImpl.internalSchemaVersion]
  omega

/-- C3 witness: the amended theorem evaluated at client version 7. -/
theorem getMergedSchemaVersion_eq_witness :
    BuildSystemImpl.getMergedSchemaVersion 7 = 1 + 7 * 65536
    ∧ BuildSystemImpl.getMergedSchemaVersion 7 % 65536 = 1
    ∧ BuildSystemImpl.getMergedSchemaVersion 7 / 65536 = 7 :=
  getMergedSchemaVersion_eq 7 (by decide)

/-- C4: MkdirCommand.isResultValid is true exactly when the prior value is a
SuccessfulCommand and the current stat of the declared output shows an existing
directory; the FileInfo embedded in the prior value is not compared against the
current stat, and MkdirCommand.getSignature is the hash of the output name. -/
theorem mkdir_isResultValid_characterization :
    ∀ (statInfo : Option FileInfo) (value : BuildValue),
    (MkdirCommand.isResultValid statInfo value = true
      ↔ value.isSuccessfulCommand = true
        ∧ ∃ info, statInfo = some info ∧ info.isDirectory = true)
    ∧ (∀ (infos1 infos2 : List FileInfo) (sig : Nat),
        MkdirCommand.isResultValid statInfo
            (BuildValue.successfulCommand infos1 sig)
          = MkdirCommand.isResultValid statInfo
            (BuildValue.successfulCommand infos2 sig))
    ∧ (∀ outputName : String,
        MkdirCommand.getSignature outputName = hashString outputName) := by
  intro statInfo value
  refine ⟨?_, ?_, fun _ => rfl⟩
  · cases value <;> cases statInfo <;>
      simp [MkdirCommand.isResultValid, BuildValue.isSuccessfulCommand]
  · intro infos1 infos2 sig
    cases statInfo <;>
      simp [MkdirCommand.isResultValid, BuildValue.isSuccessfulCommand]

/-- C6: for an input node, InputNodeTask.isResultValid holds exactly when the
node is virtual and the value is VirtualInput; or the node is not virtual, the
stat reports the file missing, and the value is MissingInput; or the node is
not virtual, the file is present, and the value is ExistingInput carrying
exactly the current stat's FileInfo. -/
theorem inputNode_isResultValid_characterization :
    ∀ (isVirtual : Bool) (statInfo : Option FileInfo) (value : BuildValue),
    InputNodeTask.isResultValid isVirtual statInfo value = true
      ↔ ((isVirtual = true ∧ value = BuildValue.virtualInput)
        ∨ (isVirtual = false ∧ statInfo = none
            ∧ value = BuildValue.missingInput)
        ∨ (isVirtual = false
            ∧ ∃ info, statInfo = some info
                ∧ value = BuildValue.existingInput info)) := by
  intro isVirtual statInfo value
  cases isVirtual <;> cases statInfo <;> cases value <;>
    simp [InputNodeTask.isResultValid, BuildValue.isVirtualInput,
      BuildValue.isMissingInput, BuildValue.isExistingInput,
      BuildValue.getOutputInfo]

/-- C7: a MissingCommandTask requests nothing and completes nothing on start
and on value delivery; on inputs-available it completes with the Invalid value
and forceChange = true; and the validity predicate of its rule rejects every
cached value. -/
theorem missingCommandTask_spec :
    MissingCommandTask.start.requests = []
    ∧ MissingCommandTask.start.completions = []
    ∧ (∀ value, (MissingCommandTask.providePriorValue value).requests = []
        ∧ (MissingCommandTask.providePriorValue value).completions = [])
    ∧ (∀ inputID value,
        (MissingCommandTask.provideValue inputID value).requests = []
        ∧ (MissingCommandTask.provideValue inputID value).completions = [])
    ∧ MissingCommandTask.inputsAvailable.requests = []
    ∧ MissingCommandTask.inputsAvailable.completions
        = [(BuildValue.invalid, true)]
    ∧ (∀ value, MissingCommandTask.ruleIsValid value = false) :=
  ⟨rfl, rfl, fun _ => ⟨rfl, rfl⟩, fun _ _ => ⟨rfl, rfl⟩, rfl, rfl, fun _ => rfl⟩

/-- C8: TargetTask.isResultValid returns false for every cached value, so a
target key is always re-evaluated and never served from cache. -/
theorem targetTask_isResultValid_false :
    ∀ value : BuildValue, TargetTask.isResultValid value = false :=
  fun _ => rfl

/-- C1 counterexample: the target "all" contains the node "missing.c", which
has no producers and whose file is absent on the filesystem; both missing-input
errors are reported and hadCommandFailure is called once, yet
BuildSystemImpl::build returns true, not failed. -/
theorem build_missingInput_counterexample :
    ("missing input 'missing.c' and no rule to build it")
      ∈ (BuildSystemImpl.build true "all" ["missing.c"]
          [InputNodeTask.inputsAvailable false none]).errors
    ∧ ("cannot build target 'all' due to missing input")
      ∈ (BuildSystemImpl.build true "all" ["missing.c"]
          [InputNodeTask.inputsAvailable false none]).errors
    ∧ (BuildSystemImpl.build true "all" ["missing.c"]
        [InputNodeTask.inputsAvailable false none]).commandFailures = 1
    ∧ (BuildSystemImpl.build true "all" ["missing.c"]
        [InputNodeTask.inputsAvailable false none]).returned = true := by
  decide

/-- The reported errors and failure count of TargetTask.inputsAvailable when
the sticky missing-input flag is set. -/
theorem TargetTask.inputsAvailable_flag (targetName : String)
    (st : TargetTask.State) (h : st.hasMissingInput = true) :
    TargetTask.inputsAvailable targetName st
      = (["cannot build target '" ++ targetName ++ "' due to missing input"],
          1, BuildValue.target) := by
  simp [TargetTask.inputsAvailable, h]

/-- C1 (amended): when the manifest loads and the requested target contains a
non-virtual node with no producers whose file is absent (so the value the
engine delivers for it is the one InputNodeTask computes for a missing file),
the missing-input error and the cannot-build-target error are reported and the
delegate's hadCommandFailure is called at least once — but build returns true;
build returns false only when the manifest fails to load. -/
theorem build_missingInput_reports (targetName : String)
    (nodeNames : List String) (nodeValues : List BuildValue) (i : Nat)
    (nodeName : String)
    (hn : nodeNames[i]? = some nodeName)
    (hv : nodeValues[i]? = some (InputNodeTask.inputsAvailable false none)) :
    ("missing input '" ++ nodeName ++ "' and no rule to build it")
      ∈ (BuildSystemImpl.build true targetName nodeNames nodeValues).errors
    ∧ ("cannot build target '" ++ targetName ++ "' due to missing input")
      ∈ (BuildSystemImpl.build true targetName nodeNames nodeValues).errors
    ∧ 1 ≤ (BuildSystemImpl.build true targetName nodeNames
        nodeValues).commandFailures
    ∧ (BuildSystemImpl.build true targetName nodeNames nodeValues).returned
        = true := by
  have hv' : nodeValues[i]? = some BuildValue.missingInput := hv
  have hmain := TargetTask.deliverFrom_missing nodeNames nodeValues
    ⟨false, []⟩ 0 i hv'
  have hgd : nodeNames.getD (0 + i) "" = nodeName := by
    simp [List.getD, hn]
  rw [hgd] at hmain
  have hfin := TargetTask.inputsAvailable_flag targetName _ hmain.2
  have hbuild : BuildSystemImpl.build true targetName nodeNames nodeValues
      = { returned := true,
          errors := (TargetTask.deliverFrom nodeNames ⟨false, []⟩ 0
              nodeValues).errors
            ++ (TargetTask.inputsAvailable targetName
                (TargetTask.deliverFrom nodeNames ⟨false, []⟩ 0
                  nodeValues)).1,
          commandFailures := (TargetTask.inputsAvailable targetName
            (TargetTask.deliverFrom nodeNames ⟨false, []⟩ 0
              nodeValues)).2.1 } := rfl
  rw [hbuild, hfin]
  refine ⟨?_, ?_, ?_, rfl⟩
  · exact List.mem_append.mpr (Or.inl hmain.1)
  · exact List.mem_append.mpr (Or.inr (by simp))
  · exact Nat.le_refl 1

/-- C1 witness: the amended theorem evaluated on the spec's scenario B. -/
theorem build_missingInput_reports_witness :
    ("missing input '" ++ "missing.c" ++ "' and no rule to build it")
      ∈ (BuildSystemImpl.build true "all" ["missing.c"]
          [InputNodeTask.inputsAvailable false none]).errors
    ∧ 1 ≤ (BuildSystemImpl.build true "all" ["missing.c"]
        [InputNodeTask.inputsAvailable false none]).commandFailures :=
  ⟨(build_missingInput_reports "all" ["missing.c"]
      [InputNodeTask.inputsAvailable false none] 0 "missing.c" rfl rfl).1,
   (build_missingInput_reports "all" ["missing.c"]
      [InputNodeTask.inputsAvailable false none] 0 "missing.c" rfl
      rfl).2.2.1⟩

/-- C2 counterexample: the args lists ["a", "b"] and ["b", "a"] differ, but the
shell-command signatures built from them (over any fixed base signature, here
0) are equal, so this change to args does not change the signature. -/
theorem shellSignature_argsChange_counterexample :
    ShellCommand.getSignature 0 ["a", "b"]
      = ShellCommand.getSignature 0 ["b", "a"]
    ∧ (["a", "b"] : List String) ≠ ["b", "a"] := by
  constructor
  · rw [ShellCommand.getSignature_eq_xorSum,
      ShellCommand.getSignature_eq_xorSum,
      xorSum_perm (List.Perm.map hashString (List.Perm.swap "b" "a" []))]
  · decide

/-- C2 (amended): the shell-command signature folds in every argv element, as
the XOR of the base signature with the per-argument hashes; hence a change to
the configured args changes the signature (and re-runs the command) exactly
when it changes the XOR of the per-argument hashes — permutations, for
instance, do not. -/
theorem shellSignature_change_characterization :
    ∀ (base : Nat) (args1 args2 : List String),
    ShellCommand.getSignature base args1
        = base ^^^ xorSum (args1.map hashString)
    ∧ (ShellCommand.getSignature base args1
          = ShellCommand.getSignature base args2
        ↔ xorSum (args1.map hashString) = xorSum (args2.map hashString)) := by
  intro base args1 args2
  refine ⟨ShellCommand.getSignature_eq_xorSum base args1, ?_⟩
  rw [ShellCommand.getSignature_eq_xorSum,
    ShellCommand.getSignature_eq_xorSum]
  exact xorLeftCancel base _ _

/-- C9: the shell-command signature is invariant under any permutation of the
args list, and under inserting a pair of identical arguments, because the
per-argument hashes are combined with XOR. -/
theorem shellSignature_perm_invariant :
    (∀ (base : Nat) (args1 args2 : List String), args1.Perm args2 →
      ShellCommand.getSignature base args1
        = ShellCommand.getSignature base args2)
    ∧ (∀ (base : Nat) (a : String) (args : List String),
      ShellCommand.getSignature base (a :: a :: args)
        = ShellCommand.getSignature base args) := by
  constructor
  · intro base args1 args2 h
    rw [ShellCommand.getSignature_eq_xorSum,
      ShellCommand.getSignature_eq_xorSum, xorSum_perm (h.map hashString)]
  · intro base a args
    rw [ShellCommand.getSignature_eq_xorSum,
      ShellCommand.getSignature_eq_xorSum, List.map_cons, List.map_cons,
      xorSum_cons, xorSum_cons,
      ← Nat.xor_assoc (hashString a) (hashString a), Nat.xor_self,
      Nat.zero_xor]

/-- C9 witness: the permutation part evaluated at base 7 on the swap of a
two-element args list. -/
theorem shellSignature_perm_invariant_witness :
    ShellCommand.getSignature 7 ["x", "y"]
      = ShellCommand.getSignature 7 ["y", "x"] :=
  shellSignature_perm_invariant.1 7 ["x", "y"] ["y", "x"]
    (List.Perm.swap "y" "x" [])

/-- C5: with two or more producers, ProducedNodeTask.start records the
ambiguous-producer error naming the first two producers, sets isInvalid, and
requests nothing, and inputsAvailable then completes with FailedInput; with
exactly one producer, start requests the producer's Command key with input id
0. -/
theorem producedNodeTask_spec :
    ∀ (nodeName : String) (producers : List String),
    (∀ (a b : String) (rest : List String), producers = a :: b :: rest →
      (ProducedNodeTask.start nodeName producers).errors
          = ["unable to build node: '" ++ nodeName
            ++ "' (node is produced by multiple commands; e.g., '" ++ a
            ++ "' and '" ++ b ++ "')"]
      ∧ (ProducedNodeTask.start nodeName producers).isInvalid = true
      ∧ (ProducedNodeTask.start nodeName producers).requests = []
      ∧ (∀ nodeResult, ProducedNodeTask.inputsAvailable
          (ProducedNodeTask.start nodeName producers).isInvalid nodeResult
          = BuildValue.failedInput))
    ∧ (∀ p : String, producers = [p] →
      (ProducedNodeTask.start nodeName producers).requests
          = [(BuildKey.command p, 0)]
      ∧ (ProducedNodeTask.start nodeName producers).errors = []
      ∧ (ProducedNodeTask.start nodeName producers).isInvalid = false) := by
  intro nodeName producers
  constructor
  · intro a b rest hp
    subst hp
    have hlen : ¬((a :: b :: rest).length = 1) := by simp
    refine ⟨?_, ?_, ?_, ?_⟩ <;>
      simp [ProducedNodeTask.start, ProducedNodeTask.inputsAvailable, hlen,
        List.getD]
  · intro p hp
    subst hp
    refine ⟨?_, ?_, ?_⟩ <;> simp [ProducedNodeTask.start, List.getD]

/-- C5 witness: the ambiguous case evaluated on the spec's scenario E, and the
single-producer case on a one-producer node. -/
theorem producedNodeTask_spec_witness :
    (ProducedNodeTask.start "out" ["c1", "c2"]).isInvalid = true
    ∧ (ProducedNodeTask.start "n1" ["c1"]).requests
        = [(BuildKey.command "c1", 0)] :=
  ⟨((producedNodeTask_spec "out" ["c1", "c2"]).1 "c1" "c2" [] rfl).2.1,
   ((producedNodeTask_spec "n1" ["c1"]).2 "c1" rfl).1⟩

/-- C10: configureClient accepts a manifest client declaration exactly when the
declared name equals the delegate's name and the declared version equals the
delegate's version; the property list has no effect on acceptance; and on a
mismatch the manifest load is rejected, so build returns false. -/
theorem configureClient_spec :
    ∀ (delegateName : String) (delegateVersion : Nat) (name : String)
      (version : Nat) (properties : List (String × String)),
    (BuildSystemFileDelegate.configureClient delegateName delegateVersion name
        version properties = true
      ↔ name = delegateName ∧ version = delegateVersion)
    ∧ (∀ properties2, BuildSystemFileDelegate.configureClient delegateName
        delegateVersion name version properties
        = BuildSystemFileDelegate.configureClient delegateName delegateVersion
          name version properties2)
    ∧ (∀ (restOk : Bool) (targetName : String) (nodeNames : List String)
        (nodeValues : List BuildValue),
        name ≠ delegateName ∨ version ≠ delegateVersion →
        (BuildSystemImpl.build
          (BuildFile.load (BuildSystemFileDelegate.configureClient delegateName
            delegateVersion name version properties) restOk)
          targetName nodeNames nodeValues).returned = false) := by
  intro dn dv n v props
  refine ⟨?_, fun _ => rfl, ?_⟩
  · by_cases h1 : n = dn <;> by_cases h2 : v = dv <;>
      simp [BuildSystemFileDelegate.configureClient, h1, h2]
  · intro restOk tn nn nv hmm
    have hc : BuildSystemFileDelegate.configureClient dn dv n v props
        = false := by
      rcases hmm with h | h
      · simp [BuildSystemFileDelegate.configureClient, h]
      · by_cases hn : n = dn <;>
          simp [BuildSystemFileDelegate.configureClient, hn, h]
    rw [hc]
    rfl

/-- C10 witness: a client declaration whose name differs from the delegate's
configured name is rejected and the build fails. -/
theorem configureClient_spec_witness :
    (BuildSystemImpl.build (BuildFile.load
        (BuildSystemFileDelegate.configureClient "client" 1 "other" 1 []) true)
        "all" [] []).returned = false :=
  (configureClient_spec "client" 1 "other" 1 []).2.2 true "all" [] []
    (Or.inl (by decide))
